import Mathlib

/-!
# Verification of the EasyStats ingestion-and-aggregation engine

Shallow embedding of the mystats.pro parser scripts (the authoritative
variant is prettygoodparser.py; easystats-parse.py is a near duplicate).
Python dictionaries are modelled as association lists when insertion
order matters and as functions into Option when only lookup matters;
Python ints are Lean Int, Python floats appearing in the derived
percentage/average computations are modelled exactly as rationals with
round-half-to-even (Python round); fallible code returns Except.
-/

namespace MyStats

/-- Value of one raw stat cell after parsing: either a plain integer or a
made-attempted pair (a Python 2-element list). -/
inductive SV where
  | int (n : Int)
  | pair (made att : Int)
deriving DecidableEq, Repr

/-- Errors raised during ingestion.  missingTitle, titleFormat and
missingStatsTable are the ValueError raises in parse_html;
valueError models an uncaught int() failure in parse_stat_value;
typeError and indexError model the Python crashes on rows whose
cell shapes fall outside the documented data model. -/
inductive PErr where
  | missingTitle
  | titleFormat (t : String)
  | missingStatsTable
  | valueError
  | typeError
  | indexError
deriving DecidableEq, Repr

/-! ## Python string helpers

All character-level manipulation is done with structural recursion over
List Char so that every definition evaluates on concrete inputs. -/

/-- Python str.strip(): drop whitespace from both ends. -/
def pyStripChars (l : List Char) : List Char :=
  ((l.dropWhile Char.isWhitespace).reverse.dropWhile Char.isWhitespace).reverse

/-- Python str.strip() on a String. -/
def pyStrip (s : String) : String := String.mk (pyStripChars s.data)

/-- Numeric value of a list of decimal digit characters. -/
def digitsVal (l : List Char) : Nat :=
  l.foldl (fun a c => a * 10 + (c.toNat - '0'.toNat)) 0

/-- Parse a nonempty all-digit character list. -/
def decDigits (l : List Char) : Option Nat :=
  if l ≠ [] ∧ l.all Char.isDigit then some (digitsVal l) else none

/-- Python int(s) for the strings this code feeds it: optional sign after
stripping whitespace, then decimal digits (int underscores are not used by
the inputs of this repository and are not modelled). -/
def pyInt (s : String) : Option Int :=
  match pyStripChars s.data with
  | '-' :: rest => (decDigits rest).map (fun n => -(n : Int))
  | '+' :: rest => (decDigits rest).map (fun n => (n : Int))
  | t => (decDigits t).map (fun n => (n : Int))

/-- Python str.lower() (ASCII). -/
def pyLower (s : String) : String := String.mk (s.data.map Char.toLower)

/-- Split a character list at every character satisfying p, keeping empty
segments, as Python str.split with an explicit separator does. -/
def splitPred (p : Char → Bool) : List Char → List (List Char)
  | [] => [[]]
  | c :: t =>
    let acc := splitPred p t
    if p c then [] :: acc
    else
      match acc with
      | h :: t2 => (c :: h) :: t2
      | [] => [[c]]

/-- Python s.split(sep) for a one-character separator. -/
def splitOnChar (sep : Char) (s : String) : List String :=
  (splitPred (fun c => c = sep) s.data).map String.mk

/-- Whitespace tokenization: the nonempty maximal runs between
whitespace. -/
def wsTokens (s : String) : List String :=
  ((splitPred Char.isWhitespace s.data).filter (fun w => w ≠ [])).map String.mk

/-- Everything before the first occurrence of the pattern (the whole list
when the pattern does not occur). -/
def takeBefore (pat : List Char) : List Char → List Char
  | [] => []
  | c :: t => if pat.isPrefixOf (c :: t) then [] else c :: takeBefore pat t

/-- Helper for str.title: rebuild the character list, uppercasing a letter
that follows a non-letter and lowercasing the rest (ASCII behaviour). -/
def pyTitleAux : Bool → List Char → List Char
  | _, [] => []
  | prev, c :: t =>
    (if c.isAlpha then (if prev then c.toLower else c.toUpper) else c)
      :: pyTitleAux c.isAlpha t

/-- Python str.title(). -/
def pyTitleCase (s : String) : String := String.mk (pyTitleAux false s.data)

/-- Whether the needle character list occurs inside the haystack list. -/
def subList (needle : List Char) : List Char → Bool
  | [] => needle.isEmpty
  | c :: t => needle.isPrefixOf (c :: t) || subList needle t

/-- Python substring containment: needle in hay. -/
def strContains (hay needle : String) : Bool := subList needle.data hay.data

/-- Dictionary assignment d[k] = v on an insertion-ordered association
list: replace the binding if the key is present, else append. -/
def writeAssoc {α : Type} (l : List (String × α)) (k : String) (v : α) :
    List (String × α) :=
  if (List.lookup k l).isSome then
    l.map (fun kv => if kv.1 = k then (k, v) else kv)
  else l ++ [(k, v)]

/-! ## Rounding (Python round over exact rationals) -/

/-- Round a rational to an integer, half to even, as Python round does. -/
def pyRoundInt (q : ℚ) : ℤ :=
  if q - ⌊q⌋ = 1/2 then (if ⌊q⌋ % 2 = 0 then ⌊q⌋ else ⌊q⌋ + 1)
  else round q

/-- Python round(q, 1). -/
def pyRound1 (q : ℚ) : ℚ := ((pyRoundInt (q * 10) : ℤ) : ℚ) / 10

/-! ## Title parsing (parse_title) -/

/-- Result of parse_title: the away/home team names and scores. -/
structure GameInfo where
  away_team : String
  away_score : Int
  home_team : String
  home_score : Int
deriving DecidableEq, Repr

/-- Drop everything from the first occurrence of -box-scores onwards,
modelling re.sub of -box-scores.*$ for single-line titles. -/
def stripBoxScores (t : String) : String :=
  String.mk (takeBefore "-box-scores".data t.data)

/-- Leading decimal digits of a token. -/
def leadingDigits (s : String) : List Char := s.data.takeWhile Char.isDigit

/-- Scan for the home side of the title pattern: the lazily matched home
team takes at least one token, then the first token that starts with a
digit supplies the home score. -/
def splitHome (acc : List String) : List String → Option (List String × Int)
  | [] => none
  | s :: rest =>
    if acc ≠ [] ∧ leadingDigits s ≠ [] then
      some (acc.reverse, (digitsVal (leadingDigits s) : Int))
    else splitHome (s :: acc) rest

/-- Scan for the away side: the lazily matched away team takes at least
one token, then an all-digit score token, then the literal token at,
provided the remainder also matches the home side. -/
def splitAway (acc : List String) : List String → Option GameInfo
  | [] => none
  | s :: rest =>
    let tryHere : Option GameInfo :=
      match decDigits s.data with
      | some n =>
        if acc ≠ [] then
          match rest with
          | t :: rest2 =>
            if t = "at" then
              match splitHome [] rest2 with
              | some (home, hs) =>
                some { away_team := pyStrip (String.intercalate " " acc.reverse)
                       away_score := (n : Int)
                       home_team := pyStrip (String.intercalate " " home)
                       home_score := hs }
              | none => none
            else none
          | [] => none
        else none
      | none => none
    match tryHere with
    | some r => some r
    | none => splitAway (s :: acc) rest

/-- parse_title from prettygoodparser.py.  The lazy regex match of
(.+?)\s+(\d+)\s+at\s+(.+?)\s+(\d+) is modelled over the
whitespace-tokenized title (interior whitespace runs normalize to single
spaces in the recovered team names). -/
def parse_title (title : String) : Option GameInfo :=
  splitAway [] (wsTokens (stripBoxScores title))

/-! ## Date parsing (parse_date) -/

/-- Month abbreviations accepted by strptime %b (case-insensitive). -/
def monthNum (m : String) : Option Nat :=
  match pyLower m with
  | "jan" => some 1 | "feb" => some 2 | "mar" => some 3 | "apr" => some 4
  | "may" => some 5 | "jun" => some 6 | "jul" => some 7 | "aug" => some 8
  | "sep" => some 9 | "oct" => some 10 | "nov" => some 11 | "dec" => some 12
  | _ => none

/-- Gregorian leap year. -/
def isLeap (y : Nat) : Bool := y % 4 = 0 && (y % 100 ≠ 0 || y % 400 = 0)

/-- Days in a month, matching the range check strptime performs. -/
def daysInMonth (y m : Nat) : Nat :=
  if m = 1 ∨ m = 3 ∨ m = 5 ∨ m = 7 ∨ m = 8 ∨ m = 10 ∨ m = 12 then 31
  else if m = 4 ∨ m = 6 ∨ m = 9 ∨ m = 11 then 30
  else if isLeap y then 29 else 28

/-- Zero-pad a number to two digits. -/
def pad2 (n : Nat) : String := if n < 10 then "0" ++ toString n else toString n

/-- Zero-pad a year to four digits. -/
def pad4 (n : Nat) : String :=
  if n < 10 then "000" ++ toString n
  else if n < 100 then "00" ++ toString n
  else if n < 1000 then "0" ++ toString n
  else toString n

/-- parse_date: strptime with format %d %b %Y rendered back as
YYYY-MM-DD; any failure falls back to the current date, supplied by the
caller as the already formatted string now. -/
def parse_date (now : String) (s : String) : String :=
  match wsTokens s with
  | [d, m, y] =>
    match decDigits d.data, monthNum m, decDigits y.data with
    | some dn, some mn, some yn =>
      if d.length ≤ 2 ∧ y.length = 4 ∧ 1 ≤ dn ∧ dn ≤ daysInMonth yn mn then
        pad4 yn ++ "-" ++ pad2 mn ++ "-" ++ pad2 dn
      else now
    | _, _, _ => now
  | _ => now

/-! ## Stat cell parsing (parse_stat_value) -/

/-- parse_stat_value from the source: empty or the DNP sentinel gives
absent; a cell containing a hyphen is split on hyphens and its first two
parts are fed to int() with no surrounding try, so a failing part raises
an uncaught ValueError; otherwise int() inside try/except degrades a
non-integer cell to absent. -/
def parse_stat_value (s : String) : Except PErr (Option SV) :=
  if s = "" ∨ s = "-" then .ok none
  else if s.data.contains '-' then
    match splitOnChar '-' s with
    | p0 :: p1 :: _ =>
      match pyInt p0, pyInt p1 with
      | some a, some b => .ok (some (.pair a b))
      | _, _ => .error .valueError
    | _ => .ok none
  else
    match pyInt s with
    | some n => .ok (some (.int n))
    | none => .ok none

/-! ## Player identity (extract_player_number, get_player_id, merge) -/

/-- extract_player_number: a leading #digits token followed by whitespace
and a nonempty remainder yields (number, name); otherwise no number and
the stripped label. -/
def extract_player_number (s : String) : Option String × String :=
  let t := pyStripChars s.data
  match t with
  | '#' :: rest =>
    let ds := rest.takeWhile Char.isDigit
    if ds ≠ [] then
      let rem := rest.drop ds.length
      let ws := rem.takeWhile Char.isWhitespace
      let nm := rem.drop ws.length
      if ws ≠ [] ∧ nm ≠ [] then (some (String.mk ds), String.mk nm)
      else (none, String.mk t)
    else (none, String.mk t)
  | _ => (none, String.mk t)

/-- get_player_id: strip periods, trim, lowercase, then replace each
space with a hyphen (the replace calls of the source have one-character
patterns). -/
def get_player_id (name : String) : String :=
  String.mk
    (((pyStripChars (name.data.filter (fun c => c ≠ '.'))).map Char.toLower).map
      (fun c => if c = ' ' then '-' else c))

/-- Team configuration of prettygoodparser.py. -/
def TEAM_NAME : String := "Pretty Good"

/-- Case-insensitive substrings recognized as our team. -/
def TEAM_VARIANTS : List String := ["pretty good", "pretty-good", "prettygood"]

/-- is_our_team: case-insensitive substring containment against the
configured variants. -/
def is_our_team (team : String) : Bool :=
  TEAM_VARIANTS.any (fun v => strContains (pyLower team) v)

/-- A players.json entry.  The images mapping holds the single portrait
path the code writes. -/
structure Player where
  id : String
  display_name : String
  name : String
  number : String
  position : String
  teams : List String
  portrait : String
deriving DecidableEq, Repr

/-- The player registry: players.json as an insertion-ordered map from
jersey-number string to record. -/
abbrev Registry : Type := List (String × Player)

/-- merge_player_data from prettygoodparser.py: an unseen number creates
a fresh record whose teams list is the configured team; a seen number has
name, display_name and id overwritten exactly when the incoming name is
strictly longer than the stored one, and nothing else (in particular the
teams list) is touched. -/
def merge_player_data (players : Registry) (number name : String) : Registry :=
  let player_id := get_player_id name
  match List.lookup number players with
  | some existing =>
    if name.length > existing.name.length then
      writeAssoc players number
        { existing with name := name, display_name := name, id := player_id }
    else players
  | none =>
    players ++ [(number,
      { id := player_id, display_name := name, name := name, number := number,
        position := "", teams := [TEAM_NAME],
        portrait := "Assets/players/" ++ player_id ++ ".png" })]

/-! ## Derived stats (calculate_derived_stats) -/

/-- Raw per-player stats of one game as §3 of the design types them:
ShootingPairs for fg, 3pt, ft (absent when the cell was the DNP dash) and
optional counting stats.  Cells whose parsed shape escapes this model
(a bare integer in a made-attempted column, a pair in a counting column)
make the Python crash downstream and are modelled as ingestion failure at
row-building time. -/
structure RawStats where
  fg : Option (Int × Int)
  threePt : Option (Int × Int)
  ft : Option (Int × Int)
  oreb : Option Int
  dreb : Option Int
  foul : Option Int
  stl : Option Int
  tov : Option Int
  blk : Option Int
  asst : Option Int
  pts : Option Int
deriving DecidableEq

/-- Derived fields produced by calculate_derived_stats.  twoPt and
twoPt_pct are only present when both fg and 3pt are truthy, exactly as
the keys are only inserted in that branch. -/
structure DerivedStats where
  twoPt : Option (Int × Int)
  twoPt_pct : Option ℚ
  fg_pct : ℚ
  threePt_pct : ℚ
  ft_pct : ℚ
  reb : Int
deriving DecidableEq

/-- calculate_derived_stats from the source: percentage is
round(made/attempted*100, 1) when attempted is positive and 0 otherwise;
2pt is the pairwise difference fg - 3pt, computed only when both pairs
are present; reb is oreb + dreb with absent (or falsy zero) treated
as 0. -/
def calculate_derived_stats (s : RawStats) : DerivedStats :=
  let two : Option (Int × Int) × Option ℚ :=
    match s.fg, s.threePt with
    | some f, some t =>
      let d : Int × Int := (f.1 - t.1, f.2 - t.2)
      (some d, some (if 0 < d.2 then pyRound1 ((d.1 : ℚ) / (d.2 : ℚ) * 100) else 0))
    | _, _ => (none, none)
  { twoPt := two.1
    twoPt_pct := two.2
    fg_pct :=
      match s.fg with
      | some f => if 0 < f.2 then pyRound1 ((f.1 : ℚ) / (f.2 : ℚ) * 100) else 0
      | none => 0
    threePt_pct :=
      match s.threePt with
      | some t => if 0 < t.2 then pyRound1 ((t.1 : ℚ) / (t.2 : ℚ) * 100) else 0
      | none => 0
    ft_pct :=
      match s.ft with
      | some f => if 0 < f.2 then pyRound1 ((f.1 : ℚ) / (f.2 : ℚ) * 100) else 0
      | none => 0
    reb := s.oreb.getD 0 + s.dreb.getD 0 }

/-- The per-player stats dictionary persisted in a game file: the raw
fields updated with the derived ones. -/
structure PlayerGameStats where
  fg : Option (Int × Int)
  threePt : Option (Int × Int)
  ft : Option (Int × Int)
  oreb : Option Int
  dreb : Option Int
  foul : Option Int
  stl : Option Int
  tov : Option Int
  blk : Option Int
  asst : Option Int
  pts : Option Int
  twoPt : Option (Int × Int)
  twoPt_pct : Option ℚ
  fg_pct : ℚ
  threePt_pct : ℚ
  ft_pct : ℚ
  reb : Int
deriving DecidableEq

/-- stats.update(derived): the persisted stat line. -/
def mkLine (s : RawStats) : PlayerGameStats :=
  let d := calculate_derived_stats s
  { fg := s.fg, threePt := s.threePt, ft := s.ft, oreb := s.oreb,
    dreb := s.dreb, foul := s.foul, stl := s.stl, tov := s.tov,
    blk := s.blk, asst := s.asst, pts := s.pts,
    twoPt := d.twoPt, twoPt_pct := d.twoPt_pct, fg_pct := d.fg_pct,
    threePt_pct := d.threePt_pct, ft_pct := d.ft_pct, reb := d.reb }

/-! ## Game records (parse_html, save_game) -/

/-- A persisted GameRecord. -/
structure Game where
  date : String
  season : String
  opponent : String
  homeAway : String
  score_us : Int
  score_them : Int
  result : String
  isPlayoff : Bool
  stats : List (String × PlayerGameStats)
deriving DecidableEq

/-- Category key of a game for the aggregators. -/
def gameTypeOf (g : Game) : String := if g.isPlayoff then "playoff" else "regular"

/-- The already-extracted pieces of an EasyStats HTML export that
parse_html consumes: the title text, the span.detail date text, and the
rows of the table with id stats (header row included, per-cell text). -/
structure HtmlDoc where
  title : Option String
  dateDetail : Option String
  statsTable : Option (List (List String))
deriving DecidableEq

/-- Convert a parsed cell destined for a made-attempted field; a bare
nonzero integer there makes calculate_derived_stats subscript an int in
Python (TypeError). -/
def asPair (v : Option SV) : Except PErr (Option (Int × Int)) :=
  match v with
  | none => .ok none
  | some (.pair m a) => .ok (some (m, a))
  | some (.int _) => .error .typeError

/-- Convert a parsed cell destined for a counting field; a pair there
makes the season aggregation add a list to an int in Python
(TypeError). -/
def asInt (v : Option SV) : Except PErr (Option Int) :=
  match v with
  | none => .ok none
  | some (.int n) => .ok (some n)
  | some (.pair _ _) => .error .typeError

/-- Fetch the stripped text of column i of a row; a missing column is the
IndexError Python raises on a short row. -/
def cellAt (cols : List String) (i : Nat) : Except PErr String :=
  match cols.get? i with
  | some c => .ok (pyStrip c)
  | none => .error .indexError

/-- Build the raw stats dictionary of one row from the fixed column
positions used by the source (fg, 3pt, ft, oreb, dreb, foul, stl, to,
blk, asst, pts at columns 1, 3, 5, 7..14). -/
def buildLine (cols : List String) : Except PErr PlayerGameStats := do
  let fg ← asPair (← parse_stat_value (← cellAt cols 1))
  let threePt ← asPair (← parse_stat_value (← cellAt cols 3))
  let ft ← asPair (← parse_stat_value (← cellAt cols 5))
  let oreb ← asInt (← parse_stat_value (← cellAt cols 7))
  let dreb ← asInt (← parse_stat_value (← cellAt cols 8))
  let foul ← asInt (← parse_stat_value (← cellAt cols 9))
  let stl ← asInt (← parse_stat_value (← cellAt cols 10))
  let tov ← asInt (← parse_stat_value (← cellAt cols 11))
  let blk ← asInt (← parse_stat_value (← cellAt cols 12))
  let asst ← asInt (← parse_stat_value (← cellAt cols 13))
  let pts ← asInt (← parse_stat_value (← cellAt cols 14))
  pure (mkLine { fg := fg, threePt := threePt, ft := ft, oreb := oreb,
                 dreb := dreb, foul := foul, stl := stl, tov := tov,
                 blk := blk, asst := asst, pts := pts })

/-- One row of the stats table: skip rows with fewer than two cells or
without a parseable number; merge the player into the registry; a fully-dash
remainder is a DNP row that records no stats; otherwise parse and store
the stat line under the number (dictionary semantics). -/
def processRow (acc : Registry × List (String × PlayerGameStats))
    (row : List String) :
    Except PErr (Registry × List (String × PlayerGameStats)) :=
  match row with
  | [] => .ok acc
  | c0 :: rest =>
    if rest = [] then .ok acc
    else
      match extract_player_number (pyStrip c0) with
      | (none, _) => .ok acc
      | (some number, name) =>
        let players' := merge_player_data acc.1 number name
        if rest.all (fun c => pyStrip c = "-") then .ok (players', acc.2)
        else do
          let line ← buildLine (c0 :: rest)
          .ok (players', writeAssoc acc.2 number line)

/-- The season-key resolution of parse_html: returns the season key, the
updated seasons_meta mapping, and whether seasons_meta was saved to disk
(the save happens inside parse_html, before the stats table check). -/
def resolveSeason (dateStr : String) (force_season : Option String)
    (meta : List (String × String)) :
    String × List (String × String) × Bool :=
  let season_key := dateStr.take 4
  match force_season with
  | none => (season_key, meta, false)
  | some fs0 =>
    let fs := pyStripChars fs0.data
    if fs.length ≥ 4 ∧ (fs.take 4).all Char.isDigit then
      let key := String.mk (fs.take 4)
      let rest := (fs.drop 4).dropWhile Char.isWhitespace
      let display :=
        if rest ≠ [] then
          key ++ " " ++ pyTitleCase (String.mk (pyStripChars rest))
        else key ++ " Season"
      (key, writeAssoc meta key display, true)
    else
      (season_key, writeAssoc meta season_key (pyTitleCase (String.mk fs)), true)

/-- Home/away resolution: if the away side matches the configured
variants we are away; else if the home side matches we are home; else
the lenient fallback assumes we are away and the opponent is the home
team. -/
def resolveSides (info : GameInfo) : Bool × String :=
  if is_our_team info.away_team then (false, info.home_team)
  else if is_our_team info.home_team then (true, info.away_team)
  else (false, info.home_team)

/-- parse_html from prettygoodparser.py over the extracted document
pieces.  Returns the outcome, the in-memory registry after the row loop,
the in-memory seasons_meta, and whether seasons_meta was written to disk
before returning (the only persistence performed inside parse_html).
now is the current date already formatted YYYY-MM-DD. -/
def parse_html (players : Registry) (meta : List (String × String))
    (doc : HtmlDoc) (is_playoff : Bool) (force_season : Option String)
    (opp_score : Option Int) (now : String) :
    Except PErr Game × Registry × List (String × String) × Bool :=
  match doc.title with
  | none => (.error .missingTitle, players, meta, false)
  | some titleText =>
    match parse_title titleText with
    | none => (.error (.titleFormat titleText), players, meta, false)
    | some info =>
      let date :=
        match doc.dateDetail with
        | some d => parse_date now d
        | none => now
      let (season_key, meta', metaSaved) := resolveSeason date force_season meta
      let (is_home, opponent) := resolveSides info
      let our_score := if is_home then info.home_score else info.away_score
      let their_score0 := if is_home then info.away_score else info.home_score
      let their_score := opp_score.getD their_score0
      match doc.statsTable with
      | none => (.error .missingStatsTable, players, meta', metaSaved)
      | some allRows =>
        match (allRows.drop 1).foldlM processRow (players, []) with
        | .error e => (.error e, players, meta', metaSaved)
        | .ok (players', player_stats) =>
          (.ok { date := date, season := season_key, opponent := opponent,
                 homeAway := if is_home then "home" else "away",
                 score_us := our_score, score_them := their_score,
                 result := if our_score > their_score then "W" else "L",
                 isPlayoff := is_playoff, stats := player_stats },
           players', meta', metaSaved)

/-- Index entry kept in games_index.json alongside each saved game. -/
structure IndexEntry where
  filename : String
  date : String
  season : String
  opponent : String
  score_us : Int
  score_them : Int
  result : String
  isPlayoff : Bool
deriving DecidableEq

/-- Lowercase, replace runs of characters outside a-z0-9 with single
hyphens (collapsing), building the list reversed. -/
def slugStep (acc : List Char) (c : Char) : List Char :=
  if ('a' ≤ c ∧ c ≤ 'z') ∨ ('0' ≤ c ∧ c ≤ '9') then c :: acc
  else
    match acc with
    | '-' :: _ => acc
    | _ => '-' :: acc

/-- The opponent slug of save_game: re.sub of [^a-z0-9]+ with a hyphen on
the lowercased name, then strip hyphens from both ends. -/
def opponentSlug (opp : String) : String :=
  let collapsed := ((opp.data.map Char.toLower).foldl slugStep []).reverse
  String.mk ((collapsed.dropWhile (fun c => c = '-')).reverse.dropWhile
    (fun c => c = '-')).reverse

/-! ## RecordsAggregator (update_records) -/

/-- One leaderboard entry of records.json.  The reset writes Python None
into every field except value, which is the integer 0. -/
structure RecordEntry where
  player : Option String
  player_number : Option String
  value : Int
  date : Option String
  opponent : Option String
deriving DecidableEq, Repr

/-- The freshly reset entry. -/
def recordZero : RecordEntry :=
  { player := none, player_number := none, value := 0, date := none,
    opponent := none }

/-- records.json as a lookup from category key and most_ stat key to the
current entry; the reset loop overwrites every tracked key of the three
categories, so the book is modelled as a total function. -/
def RecordBook : Type := String → String → RecordEntry

/-- The book after the reset loop. -/
def resetBook : RecordBook := fun _ _ => recordZero

/-- Assignment records[cat][key] = e. -/
def setRec (b : RecordBook) (cat key : String) (e : RecordEntry) : RecordBook :=
  fun c k => if c = cat ∧ k = key then e else b c k

/-- The tracked stat names of update_records, in iteration order. -/
def stat_names : List String :=
  ["pts", "reb", "asst", "stl", "blk", "to", "fg", "3pt", "ft", "oreb",
   "dreb", "foul"]

/-- stats.get(stat) of update_records over the persisted stat line:
shooting pairs come back as lists, counting stats as ints, reb always
present. -/
def getStat (line : PlayerGameStats) (s : String) : Option SV :=
  if s = "pts" then line.pts.map SV.int
  else if s = "reb" then some (SV.int line.reb)
  else if s = "asst" then line.asst.map SV.int
  else if s = "stl" then line.stl.map SV.int
  else if s = "blk" then line.blk.map SV.int
  else if s = "to" then line.tov.map SV.int
  else if s = "fg" then line.fg.map (fun p => SV.pair p.1 p.2)
  else if s = "3pt" then line.threePt.map (fun p => SV.pair p.1 p.2)
  else if s = "ft" then line.ft.map (fun p => SV.pair p.1 p.2)
  else if s = "oreb" then line.oreb.map SV.int
  else if s = "dreb" then line.dreb.map SV.int
  else if s = "foul" then line.foul.map SV.int
  else none

/-- The record-candidate extraction of update_records: a list value
contributes its made component; None and exactly-zero values are
skipped. -/
def statCandidate (v : Option SV) : Option Int :=
  match v with
  | none => none
  | some (.int n) => if n = 0 then none else some n
  | some (.pair m _) => if m = 0 then none else some m

/-- Consider one candidate value for one tracked stat: update the
game-type entry and then the all entry, each only when the candidate is
strictly greater than the stored value. -/
def applyStat (b : RecordBook) (gcat pname pnum gdate gopp key : String)
    (v : Option SV) : RecordBook :=
  match statCandidate v with
  | none => b
  | some n =>
    let e : RecordEntry :=
      { player := some pname, player_number := some pnum, value := n,
        date := some gdate, opponent := some gopp }
    let b1 := if (b gcat key).value < n then setRec b gcat key e else b
    if (b1 "all" key).value < n then setRec b1 "all" key e else b1

/-- players.get(num, default).get(name, hash-number) lookup. -/
def playerNameOf (players : Registry) (pnum : String) : String :=
  match List.lookup pnum players with
  | some p => p.name
  | none => "#" ++ pnum

/-- Fold one player's stat line over the tracked stat names. -/
def applyPlayer (players : Registry) (b : RecordBook)
    (gcat gdate gopp : String) (pr : String × PlayerGameStats) : RecordBook :=
  stat_names.foldl
    (fun b s =>
      applyStat b gcat (playerNameOf players pr.1) pr.1 gdate gopp
        ("most_" ++ s) (getStat pr.2 s)) b

/-- Fold one game over its players. -/
def applyGame (players : Registry) (b : RecordBook) (g : Game) : RecordBook :=
  g.stats.foldl (fun b pr => applyPlayer players b (gameTypeOf g) g.date g.opponent pr) b

/-- update_records from the source: the previous book is wholly
overwritten by the reset loop before every persisted game is folded in,
so the output does not depend on it; the parameter is kept to model the
mutation of self.records. -/
def update_records (_prev : RecordBook) (players : Registry)
    (games : List Game) : RecordBook :=
  games.foldl (fun b g => applyGame players b g) resetBook

/-! ## SeasonAggregator (update_season_stats) -/

/-- Derived averages and percentages appended to a season line once
gp is positive. -/
structure SeasonDerived where
  ppg : ℚ
  rpg : ℚ
  apg : ℚ
  spg : ℚ
  bpg : ℚ
  tpg : ℚ
  fpg : ℚ
  orebpg : ℚ
  drebpg : ℚ
  fga_pg : ℚ
  threePa_pg : ℚ
  fta_pg : ℚ
  twoPa_pg : ℚ
  fgm_pg : ℚ
  threePm_pg : ℚ
  ftm_pg : ℚ
  twoPm_pg : ℚ
  fg_pct : ℚ
  twoPt_pct : ℚ
  threePt_pct : ℚ
  ft_pct : ℚ
deriving DecidableEq

/-- One player's cumulative line inside a season category; derived is
present only after the finalize pass ran with gp positive. -/
structure PlayerSeason where
  gp : Int
  pts : Int
  reb : Int
  asst : Int
  stl : Int
  blk : Int
  tov : Int
  foul : Int
  oreb : Int
  dreb : Int
  fg : Int × Int
  twoPt : Int × Int
  threePt : Int × Int
  ft : Int × Int
  derived : Option SeasonDerived
deriving DecidableEq

/-- The zeroed line created on first sighting. -/
def initPS : PlayerSeason :=
  { gp := 0, pts := 0, reb := 0, asst := 0, stl := 0, blk := 0, tov := 0,
    foul := 0, oreb := 0, dreb := 0, fg := (0, 0), twoPt := (0, 0),
    threePt := (0, 0), ft := (0, 0), derived := none }

/-- A category dictionary, player number to cumulative line. -/
def CatMap : Type := String → Option PlayerSeason

/-- Assignment into a category dictionary. -/
def setCat (c : CatMap) (p : String) (v : PlayerSeason) : CatMap :=
  fun q => if q = p then some v else c q

/-- Initialize the player's line if the key is absent. -/
def ensureInit (c : CatMap) (p : String) : CatMap :=
  match c p with
  | some _ => c
  | none => setCat c p initPS

/-- One season's three category dictionaries. -/
structure SeasonData where
  regular : CatMap
  playoff : CatMap
  all : CatMap

/-- The fresh season bucket. -/
def emptySD : SeasonData :=
  { regular := fun _ => none, playoff := fun _ => none, all := fun _ => none }

/-- Dictionary read seasons[skey][cat]. -/
def getCat (sd : SeasonData) (cat : String) : CatMap :=
  if cat = "regular" then sd.regular
  else if cat = "playoff" then sd.playoff
  else sd.all

/-- Dictionary write seasons[skey][cat] = c (only ever called with the
three closed category keys). -/
def setCatIn (sd : SeasonData) (cat : String) (c : CatMap) : SeasonData :=
  if cat = "regular" then { sd with regular := c }
  else if cat = "playoff" then { sd with playoff := c }
  else { sd with all := c }

/-- Sum a counting stat, skipping falsy (absent or zero) values. -/
def addCount (cur : Int) (v : Option Int) : Int :=
  match v with
  | none => cur
  | some n => if n = 0 then cur else cur + n

/-- Sum a shooting pair component-wise when present (a present pair is
truthy even when both components are zero). -/
def addPair (cur : Int × Int) (v : Option (Int × Int)) : Int × Int :=
  match v with
  | none => cur
  | some p => (cur.1 + p.1, cur.2 + p.2)

/-- Accumulate one game line into a cumulative season line: gp rises by
one, counting stats add with falsy skip, shooting pairs add
component-wise. -/
def bump (ps : PlayerSeason) (line : PlayerGameStats) : PlayerSeason :=
  { ps with
    gp := ps.gp + 1
    pts := addCount ps.pts line.pts
    reb := addCount ps.reb (some line.reb)
    asst := addCount ps.asst line.asst
    stl := addCount ps.stl line.stl
    blk := addCount ps.blk line.blk
    tov := addCount ps.tov line.tov
    foul := addCount ps.foul line.foul
    oreb := addCount ps.oreb line.oreb
    dreb := addCount ps.dreb line.dreb
    fg := addPair ps.fg line.fg
    twoPt := addPair ps.twoPt line.twoPt
    threePt := addPair ps.threePt line.threePt
    ft := addPair ps.ft line.ft }

/-- Accumulate the line into one category of the season bucket. -/
def accumInto (sd : SeasonData) (cat pnum : String)
    (line : PlayerGameStats) : SeasonData :=
  let c := getCat sd cat
  match c pnum with
  | some ps => setCatIn sd cat (setCat c pnum (bump ps line))
  | none => sd

/-- Process one player of one game: initialize the player in all three
categories when absent, then accumulate into the game-type category and
into all. -/
def addGamePlayer (sd : SeasonData) (gtype pnum : String)
    (line : PlayerGameStats) : SeasonData :=
  let sd1 : SeasonData :=
    { regular := ensureInit sd.regular pnum
      playoff := ensureInit sd.playoff pnum
      all := ensureInit sd.all pnum }
  accumInto (accumInto sd1 gtype pnum line) "all" pnum line

/-- Update the value stored under a key of an association list in
place. -/
def updateValAt {α : Type} (l : List (String × α)) (k : String) (f : α → α) :
    List (String × α) :=
  l.map (fun kv => if kv.1 = k then (k, f kv.2) else kv)

/-- Bucket one game into the seasons dictionary. -/
def addGame (seasons : List (String × SeasonData)) (g : Game) :
    List (String × SeasonData) :=
  let skey := g.season
  let seasons1 :=
    if (List.lookup skey seasons).isSome then seasons
    else seasons ++ [(skey, emptySD)]
  updateValAt seasons1 skey
    (fun sd =>
      g.stats.foldl (fun sd pr => addGamePlayer sd (gameTypeOf g) pr.1 pr.2) sd)

/-- The aggregation pass of update_season_stats over the whole corpus. -/
def seasonsOf (games : List Game) : List (String × SeasonData) :=
  games.foldl addGame []

/-- The derived per-game averages and percentages computed when gp is
positive. -/
def mkDerived (ps : PlayerSeason) : SeasonDerived :=
  let gp : ℚ := (ps.gp : ℚ)
  { ppg := pyRound1 ((ps.pts : ℚ) / gp)
    rpg := pyRound1 ((ps.reb : ℚ) / gp)
    apg := pyRound1 ((ps.asst : ℚ) / gp)
    spg := pyRound1 ((ps.stl : ℚ) / gp)
    bpg := pyRound1 ((ps.blk : ℚ) / gp)
    tpg := pyRound1 ((ps.tov : ℚ) / gp)
    fpg := pyRound1 ((ps.foul : ℚ) / gp)
    orebpg := pyRound1 ((ps.oreb : ℚ) / gp)
    drebpg := pyRound1 ((ps.dreb : ℚ) / gp)
    fga_pg := pyRound1 ((ps.fg.2 : ℚ) / gp)
    threePa_pg := pyRound1 ((ps.threePt.2 : ℚ) / gp)
    fta_pg := pyRound1 ((ps.ft.2 : ℚ) / gp)
    twoPa_pg := pyRound1 ((ps.twoPt.2 : ℚ) / gp)
    fgm_pg := pyRound1 ((ps.fg.1 : ℚ) / gp)
    threePm_pg := pyRound1 ((ps.threePt.1 : ℚ) / gp)
    ftm_pg := pyRound1 ((ps.ft.1 : ℚ) / gp)
    twoPm_pg := pyRound1 ((ps.twoPt.1 : ℚ) / gp)
    fg_pct := if 0 < ps.fg.2 then pyRound1 ((ps.fg.1 : ℚ) / (ps.fg.2 : ℚ) * 100) else 0
    twoPt_pct := if 0 < ps.twoPt.2 then pyRound1 ((ps.twoPt.1 : ℚ) / (ps.twoPt.2 : ℚ) * 100) else 0
    threePt_pct := if 0 < ps.threePt.2 then pyRound1 ((ps.threePt.1 : ℚ) / (ps.threePt.2 : ℚ) * 100) else 0
    ft_pct := if 0 < ps.ft.2 then pyRound1 ((ps.ft.1 : ℚ) / (ps.ft.2 : ℚ) * 100) else 0 }

/-- The finalize pass on one cumulative line. -/
def finalizePS (ps : PlayerSeason) : PlayerSeason :=
  if 0 < ps.gp then { ps with derived := some (mkDerived ps) } else ps

/-- Finalize every player of every category of a season. -/
def finalizeSD (sd : SeasonData) : SeasonData :=
  { regular := fun p => (sd.regular p).map finalizePS
    playoff := fun p => (sd.playoff p).map finalizePS
    all := fun p => (sd.all p).map finalizePS }

/-- Write a batch of key-value blobs into a keyed blob store. -/
def writeAll {α : Type} (store : String → Option α)
    (l : List (String × α)) : String → Option α :=
  l.foldl (fun st kv => fun k => if k = kv.1 then some kv.2 else st k) store

/-- update_season_stats from the source: recompute every season bucket
from the whole corpus, finalize the derived fields, and save one blob per
season key into the seasons directory (stale season files of keys no game
mentions are left untouched). -/
def update_season_stats (store : String → Option SeasonData)
    (games : List Game) : String → Option SeasonData :=
  writeAll store ((seasonsOf games).map (fun kv => (kv.1, finalizeSD kv.2)))

/-! ## The persistent store and process_file -/

/-- The files the parser owns, as a blob store: the games directory (one
GameRecord per filename), games_index.json, players.json, records.json,
the seasons directory and seasons_meta.json. -/
structure Store where
  games : List (String × Game)
  games_index : List (String × IndexEntry)
  players : Registry
  records : RecordBook
  seasons : String → Option SeasonData
  seasons_meta : List (String × String)

/-- save_game: write the game under date-opponentslug.json and keep the
denormalized games index in sync. -/
def save_game (st : Store) (game : Game) : Store :=
  let slug := opponentSlug game.opponent
  let filename := game.date ++ "-" ++ slug ++ ".json"
  let game_id := game.date ++ "-" ++ slug
  { st with
    games := writeAssoc st.games filename game
    games_index := writeAssoc st.games_index game_id
      { filename := filename, date := game.date, season := game.season,
        opponent := game.opponent, score_us := game.score_us,
        score_them := game.score_them, result := game.result,
        isPlayoff := game.isPlayoff } }

/-- The corpus the aggregators scan: every persisted game file. -/
def corpusOf (st : Store) : List Game := st.games.map (fun kv => kv.2)

/-- process_file: parse, then save the game, save the players registry,
and recompute records and season aggregates.  A parse error propagates
and nothing after parse_html runs; the seasons_meta save that parse_html
may have performed before failing has already hit the store. -/
def process_file (st : Store) (doc : HtmlDoc) (is_playoff : Bool)
    (force_season : Option String) (opp_score : Option Int) (now : String) :
    Except PErr Unit × Store :=
  match parse_html st.players st.seasons_meta doc is_playoff force_season
      opp_score now with
  | (res, players', meta', _metaSaved) =>
    let st1 := { st with seasons_meta := meta' }
    match res with
    | .error e => (.error e, st1)
    | .ok game =>
      let st2 := save_game st1 game
      let st3 := { st2 with players := players' }
      let st4 := { st3 with
        records := update_records st3.records players' (corpusOf st3) }
      let st5 := { st4 with
        seasons := update_season_stats st4.seasons (corpusOf st4) }
      (.ok (), st5)

/-! ## Association list and blob store lemmas -/

theorem lookup_append_cases {α : Type} (l₁ l₂ : List (String × α)) (k : String) :
    List.lookup k (l₁ ++ l₂)
      = match List.lookup k l₁ with
        | some v => some v
        | none => List.lookup k l₂ := by
  induction l₁ with
  | nil => simp [List.lookup]
  | cons kv t ih =>
    by_cases h : k = kv.1
    · simp [List.lookup, h]
    · simpa [List.lookup, beq_false_of_ne h] using ih

theorem writeAll_apply {α : Type} (l : List (String × α))
    (store : String → Option α) (k : String) :
    writeAll store l k
      = match List.lookup k l.reverse with
        | some v => some v
        | none => store k := by
  induction l generalizing store with
  | nil => simp [writeAll, List.lookup]
  | cons kv t ih =>
    show writeAll (fun k0 => if k0 = kv.1 then some kv.2 else store k0) t k = _
    rw [ih]
    rw [List.reverse_cons, lookup_append_cases]
    cases List.lookup k t.reverse with
    | some v => rfl
    | none =>
      by_cases h : k = kv.1
      · simp [List.lookup, h]
      · simp [List.lookup, beq_false_of_ne h, h]

theorem writeAll_writeAll {α : Type} (store : String → Option α)
    (l : List (String × α)) :
    writeAll (writeAll store l) l = writeAll store l := by
  funext k
  rw [writeAll_apply, writeAll_apply]
  cases List.lookup k l.reverse <;> rfl

theorem lookup_map_update {α : Type} (l : List (String × α)) (k : String)
    (v : α) :
    List.lookup k (l.map (fun kv => if kv.1 = k then (k, v) else kv))
      = (List.lookup k l).map (fun _ => v) := by
  induction l with
  | nil => rfl
  | cons kv t ih =>
    obtain ⟨k1, v1⟩ := kv
    simp only [List.map_cons]
    by_cases h : k1 = k
    · subst h
      rw [if_pos rfl]
      simp [List.lookup]
    · rw [if_neg h]
      have h' : (k == k1) = false := beq_false_of_ne (fun e => h e.symm)
      simp [List.lookup, h', ih]

theorem lookup_writeAssoc_self {α : Type} (l : List (String × α)) (k : String)
    (v : α) : List.lookup k (writeAssoc l k v) = some v := by
  unfold writeAssoc
  by_cases h : (List.lookup k l).isSome
  · rw [if_pos h, lookup_map_update]
    rcases Option.isSome_iff_exists.mp h with ⟨w, hw⟩
    rw [hw]; rfl
  · rw [if_neg h, lookup_append_cases]
    rw [Option.not_isSome_iff_eq_none] at h
    rw [h]
    simp [List.lookup]

/-! ## Claim theorems -/

/-- C2: each derived shooting percentage equals
round(made/attempted*100, 1) when attempted is positive and 0 when
attempted is 0 (so 0/0 yields 0, never an error), and the 2pt pair is the
pairwise difference fg - 3pt. -/
theorem derived_percentage_policy (s : RawStats) (fm fa tm ta gm ga : Int)
    (hfg : s.fg = some (fm, fa)) (h3 : s.threePt = some (tm, ta))
    (hft : s.ft = some (gm, ga)) :
    (calculate_derived_stats s).fg_pct
      = (if 0 < fa then pyRound1 ((fm : ℚ) / (fa : ℚ) * 100) else 0)
    ∧ (calculate_derived_stats s).threePt_pct
      = (if 0 < ta then pyRound1 ((tm : ℚ) / (ta : ℚ) * 100) else 0)
    ∧ (calculate_derived_stats s).ft_pct
      = (if 0 < ga then pyRound1 ((gm : ℚ) / (ga : ℚ) * 100) else 0)
    ∧ (calculate_derived_stats s).twoPt = some (fm - tm, fa - ta)
    ∧ (calculate_derived_stats s).twoPt_pct
      = some (if 0 < fa - ta
          then pyRound1 (((fm - tm : Int) : ℚ) / ((fa - ta : Int) : ℚ) * 100)
          else 0) := by
  refine ⟨?_, ?_, ?_, ?_, ?_⟩ <;>
    simp [calculate_derived_stats, hfg, h3, hft]

/-- Witness for C2 at the spec's worked example and at the 0/0 edge
case. -/
theorem derived_percentage_policy_witness :
    (calculate_derived_stats
        { fg := some (0, 0), threePt := some (0, 0), ft := some (3, 4),
          oreb := none, dreb := none, foul := none, stl := none, tov := none,
          blk := none, asst := none, pts := none }).fg_pct = 0
    ∧ (calculate_derived_stats
        { fg := some (0, 0), threePt := some (0, 0), ft := some (3, 4),
          oreb := none, dreb := none, foul := none, stl := none, tov := none,
          blk := none, asst := none, pts := none }).ft_pct = 75 := by
  have h := derived_percentage_policy
    { fg := some (0, 0), threePt := some (0, 0), ft := some (3, 4),
      oreb := none, dreb := none, foul := none, stl := none, tov := none,
      blk := none, asst := none, pts := none } 0 0 0 0 3 4 rfl rfl rfl
  refine ⟨?_, ?_⟩
  · rw [h.1]; norm_num
  · rw [h.2.2.1]
    norm_num [pyRound1, pyRoundInt]

/-- C3: both aggregators fully recompute from the persisted corpus, so
running either twice on an unchanged corpus produces the same records
book and the same seasons store as running it once. -/
theorem aggregators_idempotent (prev : RecordBook) (players : Registry)
    (games : List Game) (store : String → Option SeasonData) :
    update_records (update_records prev players games) players games
      = update_records prev players games
    ∧ update_season_stats (update_season_stats store games) games
      = update_season_stats store games := by
  constructor
  · rfl
  · exact writeAll_writeAll store _

/-- C5 counterexample: a cell of three hyphen-separated parts does not
degrade to absent but yields the pair of its first two parts, and a
dangling hyphen raises an uncaught ValueError that aborts the ingestion
instead of degrading. -/
theorem stat_cell_counterexample :
    parse_stat_value "1-2-3" = .ok (some (.pair 1 2))
    ∧ parse_stat_value "3-" = .error .valueError
    ∧ parse_stat_value "-3" = .error .valueError := by
  refine ⟨?_, ?_, ?_⟩ <;> rfl

/-- C5 as amended: empty cells, the DNP sentinel and hyphen-free
non-integer cells degrade to absent and a hyphen-free cell never fails;
but a hyphen-bearing cell is split on hyphens with its first two parts
fed to int(), so extra parts are silently truncated and empty parts
raise an uncaught error. -/
theorem stat_cell_policy (s : String) (h : s.data.contains '-' = false) :
    parse_stat_value "" = .ok none
    ∧ parse_stat_value "-" = .ok none
    ∧ parse_stat_value "abc" = .ok none
    ∧ parse_stat_value "13" = .ok (some (.int 13))
    ∧ parse_stat_value "4-16" = .ok (some (.pair 4 16))
    ∧ (∃ v, parse_stat_value s = .ok v) := by
  refine ⟨rfl, rfl, rfl, rfl, rfl, ?_⟩
  unfold parse_stat_value
  by_cases h0 : s = "" ∨ s = "-"
  · rw [if_pos h0]; exact ⟨none, rfl⟩
  · rw [if_neg h0]
    simp only [h, Bool.false_eq_true, if_false]
    cases pyInt s <;> exact ⟨_, rfl⟩

/-- Witness for C5: a hyphen-free garbage cell parses without failing. -/
theorem stat_cell_policy_witness :
    ∃ v, parse_stat_value "xyz" = .ok v :=
  (stat_cell_policy "xyz" rfl).2.2.2.2.2

/-- C6 counterexample: merging an already-seen number whose stored record
does not list the team leaves the teams list untouched, so the current
team name is not present after the call (the teams list is only
populated at record creation in this variant; the sibling variant even
creates it empty and relies on its caller). -/
theorem merge_team_counterexample :
    merge_player_data
        [("7", { id := "al", display_name := "Al", name := "Al",
                 number := "7", position := "", teams := [],
                 portrait := "Assets/players/al.png" })] "7" "Al"
      = [("7", { id := "al", display_name := "Al", name := "Al",
                 number := "7", position := "", teams := [],
                 portrait := "Assets/players/al.png" })]
    ∧ TEAM_NAME ∉ ([] : List String) := by
  constructor
  · rfl
  · simp

/-- C6 as amended: an unseen number creates a record with
id = slugify(name), name = displayName = name and the current team in
its teams list; a seen number has name, displayName and id overwritten
exactly when the incoming name is strictly longer, and its teams list is
left unchanged by the call (so the team is only guaranteed present for
records this merge itself created). -/
theorem merge_player_spec (players : Registry) (number name : String) :
    (List.lookup number players = none →
      ∃ p, merge_player_data players number name = players ++ [(number, p)]
        ∧ p.id = get_player_id name ∧ p.name = name ∧ p.display_name = name
        ∧ TEAM_NAME ∈ p.teams)
    ∧ (∀ ex, List.lookup number players = some ex →
        (ex.name.length < name.length →
          List.lookup number (merge_player_data players number name)
            = some { ex with
                       name := name
                       display_name := name
                       id := get_player_id name })
        ∧ (¬ ex.name.length < name.length →
            merge_player_data players number name = players)
        ∧ (∀ p', List.lookup number (merge_player_data players number name)
              = some p' → p'.teams = ex.teams)) := by
  constructor
  · intro hnone
    refine ⟨{ id := get_player_id name, display_name := name, name := name,
              number := number, position := "", teams := [TEAM_NAME],
              portrait := "Assets/players/" ++ get_player_id name ++ ".png" },
            ?_, rfl, rfl, rfl, ?_⟩
    · unfold merge_player_data
      rw [hnone]
    · simp
  · intro ex hex
    have hm : merge_player_data players number name
        = if name.length > ex.name.length then
            writeAssoc players number
              { ex with
                name := name
                display_name := name
                id := get_player_id name }
          else players := by
      unfold merge_player_data
      rw [hex]
    refine ⟨?_, ?_, ?_⟩
    · intro hlt
      rw [hm, if_pos hlt, lookup_writeAssoc_self]
    · intro hge
      rw [hm, if_neg hge]
    · intro p' hp'
      by_cases hlt : name.length > ex.name.length
      · rw [hm, if_pos hlt, lookup_writeAssoc_self] at hp'
        cases hp'
        rfl
      · rw [hm, if_neg hlt] at hp'
        rw [hex] at hp'
        cases hp'
        rfl

/-- Witness for C6: a longer incoming name overwrites name, displayName
and id of a seen player without touching the teams list. -/
theorem merge_player_spec_witness :
    List.lookup "7"
        (merge_player_data
          [("7", { id := "al", display_name := "Al", name := "Al",
                   number := "7", position := "G", teams := ["Old Team"],
                   portrait := "Assets/players/al.png" })] "7" "Alonzo")
      = some { id := "alonzo", display_name := "Alonzo", name := "Alonzo",
               number := "7", position := "G", teams := ["Old Team"],
               portrait := "Assets/players/al.png" } := by
  have h := ((merge_player_spec
    [("7", { id := "al", display_name := "Al", name := "Al",
             number := "7", position := "G", teams := ["Old Team"],
             portrait := "Assets/players/al.png" })] "7" "Alonzo").2
    { id := "al", display_name := "Al", name := "Al",
      number := "7", position := "G", teams := ["Old Team"],
      portrait := "Assets/players/al.png" } rfl).1 (by decide)
  exact h.trans (by decide)

/-- C7: the spec's worked title example resolves to a home win over
Rivals, and the resolution never fails: when neither side matches the
configured variants the builder falls back to away with the home team as
opponent. -/
theorem our_side_resolution :
    parse_title "Rivals 40 at Pretty Good 52"
      = some { away_team := "Rivals", away_score := 40,
               home_team := "Pretty Good", home_score := 52 }
    ∧ (parse_html [] []
        { title := some "Rivals 40 at Pretty Good 52", dateDetail := none,
          statsTable := some [[]] } false none none "2025-06-01").1
      = .ok { date := "2025-06-01", season := "2025", opponent := "Rivals",
              homeAway := "home", score_us := 52, score_them := 40,
              result := "W", isPlayoff := false, stats := [] }
    ∧ (∀ info : GameInfo, is_our_team info.away_team = false →
        is_our_team info.home_team = false →
        resolveSides info = (false, info.home_team)) := by
  refine ⟨rfl, rfl, ?_⟩
  intro info h1 h2
  unfold resolveSides
  rw [h1, h2]
  simp

/-- Witness for C7: the lenient fallback on a title where neither team
matches. -/
theorem our_side_resolution_witness :
    resolveSides { away_team := "Alpha", away_score := 1,
                   home_team := "Beta", home_score := 2 } = (false, "Beta") :=
  our_side_resolution.2.2
    { away_team := "Alpha", away_score := 1, home_team := "Beta",
      home_score := 2 } (by decide) (by decide)

/-! ## RecordBook fold lemmas -/

theorem applyStat_apply (b : RecordBook)
    (gcat pname pnum gdate gopp key : String) (v : Option SV)
    (cat k : String) :
    applyStat b gcat pname pnum gdate gopp key v cat k
      = match statCandidate v with
        | none => b cat k
        | some n =>
          if (cat = gcat ∨ cat = "all") ∧ k = key ∧ (b cat k).value < n
          then { player := some pname, player_number := some pnum, value := n,
                 date := some gdate, opponent := some gopp }
          else b cat k := by
  cases hv : statCandidate v with
  | none => simp only [applyStat, hv]
  | some n =>
    simp only [applyStat, hv]
    by_cases hk : k = key <;> by_cases hcg : cat = gcat <;>
      by_cases hca : cat = "all" <;> by_cases hga : "all" = gcat <;>
      split_ifs <;> simp_all [setRec] <;>
      first
        | omega
        | (rename_i hcj
           rcases hcj with ⟨rfl, hlt⟩
           omega)

theorem applyStat_value (b : RecordBook)
    (gcat pname pnum gdate gopp key : String) (v : Option SV)
    (cat k : String) :
    ((applyStat b gcat pname pnum gdate gopp key v) cat k).value
      = match statCandidate v with
        | none => (b cat k).value
        | some n =>
          if (cat = gcat ∨ cat = "all") ∧ k = key
          then max ((b cat k).value) n else (b cat k).value := by
  rw [applyStat_apply]
  cases hv : statCandidate v with
  | none => rfl
  | some n =>
    dsimp only
    by_cases hm : (cat = gcat ∨ cat = "all") ∧ k = key
    · by_cases hlt : (b cat k).value < n
      · rw [if_pos ⟨hm.1, hm.2, hlt⟩, if_pos hm]
        exact (max_eq_right (le_of_lt hlt)).symm
      · rw [if_neg (fun h3 => hlt h3.2.2), if_pos hm]
        exact (max_eq_left (le_of_not_lt hlt)).symm
    · rw [if_neg (fun h3 => hm ⟨h3.1, h3.2.1⟩), if_neg hm]

/-- Pointwise comparison on record values. -/
def bookLe (b b' : RecordBook) : Prop :=
  ∀ cat k, (b cat k).value ≤ (b' cat k).value

theorem bookLe_refl (b : RecordBook) : bookLe b b := fun _ _ => le_refl _

theorem bookLe_trans {a b c : RecordBook} (h1 : bookLe a b) (h2 : bookLe b c) :
    bookLe a c := fun cat k => le_trans (h1 cat k) (h2 cat k)

theorem applyStat_le (b : RecordBook) (gcat pname pnum gdate gopp key : String)
    (v : Option SV) : bookLe b (applyStat b gcat pname pnum gdate gopp key v) := by
  intro cat k
  rw [applyStat_value]
  cases statCandidate v with
  | none => exact le_refl _
  | some n =>
    dsimp only
    by_cases hm : (cat = gcat ∨ cat = "all") ∧ k = key
    · rw [if_pos hm]; exact le_max_left _ _
    · rw [if_neg hm]

theorem applyStat_mono {b b' : RecordBook} (h : bookLe b b')
    (gcat pname pnum gdate gopp key : String) (v : Option SV) :
    bookLe (applyStat b gcat pname pnum gdate gopp key v)
      (applyStat b' gcat pname pnum gdate gopp key v) := by
  intro cat k
  rw [applyStat_value, applyStat_value]
  cases statCandidate v with
  | none => exact h cat k
  | some n =>
    dsimp only
    by_cases hm : (cat = gcat ∨ cat = "all") ∧ k = key
    · rw [if_pos hm, if_pos hm]
      exact max_le_max (h cat k) (le_refl n)
    · rw [if_neg hm, if_neg hm]; exact h cat k

theorem foldl_bookLe {α : Type} (f : RecordBook → α → RecordBook)
    (hf : ∀ b x, bookLe b (f b x)) :
    ∀ (l : List α) (b : RecordBook), bookLe b (List.foldl f b l) := by
  intro l
  induction l with
  | nil => intro b; exact bookLe_refl b
  | cons x t ih => intro b; exact bookLe_trans (hf b x) (ih (f b x))

theorem foldl_bookLe_mono {α : Type} (f : RecordBook → α → RecordBook)
    (hm : ∀ {b b'} (x : α), bookLe b b' → bookLe (f b x) (f b' x)) :
    ∀ (l : List α) {b b'}, bookLe b b' →
      bookLe (List.foldl f b l) (List.foldl f b' l) := by
  intro l
  induction l with
  | nil => intro b b' h; exact h
  | cons x t ih => intro b b' h; exact ih (hm x h)

theorem applyPlayer_le (players : Registry) (b : RecordBook)
    (gcat gdate gopp : String) (pr : String × PlayerGameStats) :
    bookLe b (applyPlayer players b gcat gdate gopp pr) := by
  unfold applyPlayer
  exact foldl_bookLe _ (fun b s => applyStat_le b gcat _ pr.1 gdate gopp _ _)
    stat_names b

theorem applyPlayer_mono (players : Registry) {b b' : RecordBook}
    (h : bookLe b b') (gcat gdate gopp : String)
    (pr : String × PlayerGameStats) :
    bookLe (applyPlayer players b gcat gdate gopp pr)
      (applyPlayer players b' gcat gdate gopp pr) := by
  unfold applyPlayer
  exact foldl_bookLe_mono
    (fun b s => applyStat b gcat (playerNameOf players pr.1) pr.1 gdate gopp
      ("most_" ++ s) (getStat pr.2 s))
    (fun s hb => applyStat_mono hb gcat (playerNameOf players pr.1) pr.1
      gdate gopp _ _) stat_names h

theorem applyGame_le (players : Registry) (b : RecordBook) (g : Game) :
    bookLe b (applyGame players b g) := by
  unfold applyGame
  exact foldl_bookLe _ (fun b pr => applyPlayer_le players b _ _ _ pr)
    g.stats b

theorem applyGame_mono (players : Registry) {b b' : RecordBook}
    (h : bookLe b b') (g : Game) :
    bookLe (applyGame players b g) (applyGame players b' g) := by
  unfold applyGame
  exact foldl_bookLe_mono
    (fun b pr => applyPlayer players b (gameTypeOf g) g.date g.opponent pr)
    (fun pr hb => applyPlayer_mono players hb (gameTypeOf g) g.date g.opponent
      pr) g.stats h

theorem foldGames_sublist (players : Registry) {C C' : List Game}
    (hsub : C.Sublist C') :
    ∀ b : RecordBook,
      bookLe (C.foldl (fun b g => applyGame players b g) b)
        (C'.foldl (fun b g => applyGame players b g) b) := by
  induction hsub with
  | slnil => intro b; exact bookLe_refl _
  | cons g _ ih =>
    intro b
    refine bookLe_trans (ih b) ?_
    show bookLe _ (List.foldl _ (applyGame players b g) _)
    exact foldl_bookLe_mono _ (fun g hb => applyGame_mono players hb g) _
      (applyGame_le players b g)
  | cons₂ g _ ih => intro b; exact ih (applyGame players b g)

/-- C8: record values computed by a full recomputation never decrease
when the persisted corpus only grows (the smaller corpus is a sublist of
the larger, games added anywhere); the previous book is irrelevant since
the pass resets it. -/
theorem record_values_monotone (prev1 prev2 : RecordBook)
    (players : Registry) (C C' : List Game) (hsub : C.Sublist C')
    (cat k : String) :
    (update_records prev1 players C cat k).value
      ≤ (update_records prev2 players C' cat k).value :=
  foldGames_sublist players hsub resetBook cat k

/-- Shared concrete stat line for witnesses: the spec's worked example
row. -/
def demoLine : PlayerGameStats :=
  mkLine { fg := some (4, 10), threePt := some (2, 5), ft := some (3, 4),
           oreb := some 1, dreb := some 2, foul := some 3, stl := some 0,
           tov := some 1, blk := some 0, asst := some 4, pts := some 13 }

/-- Shared concrete game for witnesses. -/
def demoGame : Game :=
  { date := "2025-12-16", season := "2025", opponent := "Rivals",
    homeAway := "home", score_us := 52, score_them := 40, result := "W",
    isPlayoff := false, stats := [("7", demoLine)] }

/-- Witness for C8: adding a game to the empty corpus. -/
theorem record_values_monotone_witness :
    (update_records resetBook [] [] "regular" "most_pts").value
      ≤ (update_records resetBook [] [demoGame] "regular" "most_pts").value :=
  record_values_monotone resetBook resetBook [] [] [demoGame]
    (List.nil_sublist _) "regular" "most_pts"

/-! ## C9: entries untouched by any qualifying value -/

/-- A JSON scalar as records.json renders a RecordEntry field: Python
None becomes null, ints and strings map over. -/
inductive JVal where
  | null
  | jint (n : Int)
  | jstr (s : String)
deriving DecidableEq, Repr

/-- Render an optional string field. -/
def jOptS (v : Option String) : JVal :=
  match v with
  | none => .null
  | some s => .jstr s

/-- The JSON object persisted for one record entry. -/
def entryJson (e : RecordEntry) : List (String × JVal) :=
  [("player", jOptS e.player), ("player_number", jOptS e.player_number),
   ("value", .jint e.value), ("date", jOptS e.date),
   ("opponent", jOptS e.opponent)]

/-- C9 counterexample: with no qualifying game at all, the persisted
entry's value field is the integer 0, not null, so the entry is not
all-null as claimed. -/
theorem record_reset_counterexample :
    List.lookup "value"
        (entryJson (update_records resetBook [] [] "regular" "most_pts"))
      = some (JVal.jint 0)
    ∧ JVal.jint 0 ≠ JVal.null := by
  exact ⟨rfl, by simp⟩

theorem foldStats_untouched (players : Registry) (gcat gdate gopp : String)
    (pnum : String) (line : PlayerGameStats) (cat k : String)
    (l : List String)
    (h : cat = gcat ∨ cat = "all" →
      ∀ s ∈ l, ("most_" ++ s) = k → statCandidate (getStat line s) = none) :
    ∀ b : RecordBook,
      (l.foldl (fun b s =>
        applyStat b gcat (playerNameOf players pnum) pnum gdate gopp
          ("most_" ++ s) (getStat line s)) b) cat k = b cat k := by
  induction l with
  | nil => intro b; rfl
  | cons s t ih =>
    intro b
    rw [List.foldl_cons,
      ih (fun hc s2 hs2 => h hc s2 (List.mem_cons_of_mem s hs2)),
      applyStat_apply]
    cases hv : statCandidate (getStat line s) with
    | none => rfl
    | some n =>
      dsimp only
      rw [if_neg]
      intro ⟨hc, hk, _⟩
      rw [h hc s (List.mem_cons_self s t) hk.symm] at hv
      exact Option.noConfusion hv

theorem foldPlayers_untouched (players : Registry) (gcat gdate gopp : String)
    (stats : List (String × PlayerGameStats)) (cat k : String)
    (h : cat = gcat ∨ cat = "all" →
      ∀ pr ∈ stats, ∀ s ∈ stat_names,
        ("most_" ++ s) = k → statCandidate (getStat pr.2 s) = none) :
    ∀ b : RecordBook,
      (stats.foldl (fun b pr => applyPlayer players b gcat gdate gopp pr) b)
          cat k = b cat k := by
  induction stats with
  | nil => intro b; rfl
  | cons pr t ih =>
    intro b
    rw [List.foldl_cons,
      ih (fun hc pr2 hpr2 => h hc pr2 (List.mem_cons_of_mem pr hpr2))]
    exact foldStats_untouched players gcat gdate gopp pr.1 pr.2 cat k
      stat_names (fun hc => h hc pr (List.mem_cons_self pr t)) b

theorem foldGames_untouched (players : Registry) (games : List Game)
    (cat k : String)
    (h : ∀ g ∈ games, (cat = "all" ∨ gameTypeOf g = cat) →
      ∀ pr ∈ g.stats, ∀ s ∈ stat_names,
        ("most_" ++ s) = k → statCandidate (getStat pr.2 s) = none) :
    ∀ b : RecordBook,
      (games.foldl (fun b g => applyGame players b g) b) cat k = b cat k := by
  induction games with
  | nil => intro b; rfl
  | cons g t ih =>
    intro b
    rw [List.foldl_cons,
      ih (fun g2 hg2 => h g2 (List.mem_cons_of_mem g hg2))]
    exact foldPlayers_untouched players (gameTypeOf g) g.date g.opponent
      g.stats cat k
      (fun hc => h g (List.mem_cons_self g t)
        (hc.elim (fun e => Or.inr e.symm) (fun e => Or.inl e))) b

/-- C9 as amended: when no game of the corpus supplies a qualifying
(non-null, non-zero) value for a tracked stat key in a category, the
entry of that category and key is exactly the reset sentinel: player,
playerNumber, date and opponent are null, and value is the integer 0
(not null). -/
theorem record_entry_no_qualifier (prev : RecordBook) (players : Registry)
    (games : List Game) (cat k : String)
    (h : ∀ g ∈ games, (cat = "all" ∨ gameTypeOf g = cat) →
      ∀ pr ∈ g.stats, ∀ s ∈ stat_names,
        ("most_" ++ s) = k → statCandidate (getStat pr.2 s) = none) :
    update_records prev players games cat k = recordZero := by
  unfold update_records
  rw [foldGames_untouched players games cat k h resetBook]
  rfl

/-- Witness for C9: a playoff-only corpus leaves the regular most_pts
entry at the reset sentinel. -/
theorem record_entry_no_qualifier_witness :
    update_records resetBook []
        [{ demoGame with isPlayoff := true }] "regular" "most_pts"
      = recordZero :=
  record_entry_no_qualifier resetBook [] [{ demoGame with isPlayoff := true }]
    "regular" "most_pts" (by decide)

/-- C1: the record-update step skips null and exactly-zero candidates
(zero never sets a record, even into the freshly reset book), takes the
made component of a ShootingPair, and rewrites the game-type entry and
the all entry exactly when the candidate strictly exceeds the stored
value, leaving every other entry untouched. -/
theorem record_update_policy (b : RecordBook)
    (gcat pname pnum gdate gopp key cat k : String) (v : Option SV)
    (n m a : Int) (hv : statCandidate v = some n) :
    applyStat b gcat pname pnum gdate gopp key none = b
    ∧ applyStat b gcat pname pnum gdate gopp key (some (.int 0)) = b
    ∧ applyStat b gcat pname pnum gdate gopp key (some (.pair 0 a)) = b
    ∧ applyStat b gcat pname pnum gdate gopp key (some (.pair m a))
      = applyStat b gcat pname pnum gdate gopp key (some (.int m))
    ∧ applyStat b gcat pname pnum gdate gopp key v cat k
      = (if (cat = gcat ∨ cat = "all") ∧ k = key ∧ (b cat k).value < n
         then { player := some pname, player_number := some pnum, value := n,
                date := some gdate, opponent := some gopp }
         else b cat k)
    ∧ update_records b [] [] = resetBook := by
  refine ⟨rfl, rfl, rfl, rfl, ?_, rfl⟩
  rw [applyStat_apply, hv]

/-- Witness for C1: a 13-point performance sets the fresh regular-season
points record. -/
theorem record_update_policy_witness :
    applyStat resetBook "regular" "J. Smith" "7" "2025-12-16" "Rivals"
        "most_pts" (some (.int 13)) "regular" "most_pts"
      = { player := some "J. Smith", player_number := some "7", value := 13,
          date := some "2025-12-16", opponent := some "Rivals" } := by
  have h := (record_update_policy resetBook "regular" "J. Smith" "7"
    "2025-12-16" "Rivals" "most_pts" "regular" "most_pts"
    (some (.int 13)) 13 0 0 (by decide)).2.2.2.2.1
  exact h.trans (by decide)

/-! ## C4: failure before persistence -/

/-- An empty store for the error-path counterexample and witnesses. -/
def demoStore : Store :=
  { games := [], games_index := [], players := [], records := resetBook,
    seasons := fun _ => none, seasons_meta := [] }

/-- A document whose stats table is missing. -/
def docNoTable : HtmlDoc :=
  { title := some "Rivals 40 at Pretty Good 52", dateDetail := none,
    statsTable := none }

/-- C4 counterexample: a missing stats table with a forced season fails
the ingestion only after the season metadata has been persisted, so the
builder does perform a persistence side effect before failing. -/
theorem ingestion_side_effect_counterexample :
    (process_file demoStore docNoTable false (some "2024 fall") none
        "2025-06-01").1 = .error .missingStatsTable
    ∧ (process_file demoStore docNoTable false (some "2024 fall") none
        "2025-06-01").2.seasons_meta = [("2024", "2024 Fall")]
    ∧ demoStore.seasons_meta = [] := by
  refine ⟨rfl, rfl, rfl⟩

/-- C4 as amended: a missing or unparseable title aborts the ingestion
with its error before any persistence; a missing stats table aborts it
with MissingStatsTable before any game, index, registry, record or
season-aggregate write, and before any persistence at all unless a
forced season was supplied, in which case only the season metadata has
already been saved. -/
theorem ingestion_error_policy (st : Store) (doc : HtmlDoc)
    (is_playoff : Bool) (force_season : Option String)
    (opp_score : Option Int) (now : String) :
    (doc.title = none →
      process_file st doc is_playoff force_season opp_score now
        = (.error .missingTitle, st))
    ∧ (∀ t, doc.title = some t → parse_title t = none →
        process_file st doc is_playoff force_season opp_score now
          = (.error (.titleFormat t), st))
    ∧ (∀ t info, doc.title = some t → parse_title t = some info →
        doc.statsTable = none →
        (process_file st doc is_playoff force_season opp_score now).1
          = .error .missingStatsTable
        ∧ (process_file st doc is_playoff force_season opp_score now).2.games
          = st.games
        ∧ (process_file st doc is_playoff force_season opp_score
            now).2.games_index = st.games_index
        ∧ (process_file st doc is_playoff force_season opp_score
            now).2.players = st.players
        ∧ (process_file st doc is_playoff force_season opp_score
            now).2.records = st.records
        ∧ (process_file st doc is_playoff force_season opp_score
            now).2.seasons = st.seasons
        ∧ (force_season = none →
            process_file st doc is_playoff force_season opp_score now
              = (.error .missingStatsTable, st))) := by
  refine ⟨?_, ?_, ?_⟩
  · intro h
    simp [process_file, parse_html, h]
  · intro t ht hpt
    simp [process_file, parse_html, ht, hpt]
  · intro t info ht hpt hst
    have hmain : process_file st doc is_playoff force_season opp_score now
        = (.error .missingStatsTable,
           { st with seasons_meta :=
              (resolveSeason
                (match doc.dateDetail with
                 | some d => parse_date now d
                 | none => now) force_season st.seasons_meta).2.1 }) := by
      simp [process_file, parse_html, ht, hpt, hst]
    rw [hmain]
    refine ⟨rfl, rfl, rfl, rfl, rfl, rfl, ?_⟩
    intro hfs
    simp [resolveSeason, hfs]

/-- Witness for C4: a titleless document fails with MissingTitle and the
store is untouched. -/
theorem ingestion_error_policy_witness :
    process_file demoStore
        { title := none, dateDetail := none, statsTable := none } false none
        none "2025-06-01"
      = (.error .missingTitle, demoStore) :=
  (ingestion_error_policy demoStore
    { title := none, dateDetail := none, statsTable := none } false none none
    "2025-06-01").1 rfl

/-! ## Association list lemmas for the seasons dictionary -/

theorem lookup_some_mem {α : Type} {l : List (String × α)} {k : String}
    {v : α} (h : List.lookup k l = some v) : (k, v) ∈ l := by
  induction l with
  | nil => exact Option.noConfusion h
  | cons kv t ih =>
    obtain ⟨k1, v1⟩ := kv
    rw [List.lookup] at h
    cases hbe : k == k1 with
    | true =>
      simp only [hbe] at h
      cases h
      have hk : k = k1 := eq_of_beq hbe
      subst hk
      exact List.mem_cons_self _ _
    | false =>
      simp only [hbe] at h
      exact List.mem_cons_of_mem _ (ih h)

theorem lookup_isSome_iff_mem_keys {α : Type} (l : List (String × α))
    (k : String) :
    (List.lookup k l).isSome = true ↔ k ∈ l.map Prod.fst := by
  induction l with
  | nil => simp [List.lookup]
  | cons kv t ih =>
    by_cases hk : k = kv.1
    · simp [List.lookup, hk]
    · simp [List.lookup, beq_false_of_ne hk, hk, ih]

theorem lookup_map_value {α β : Type} (l : List (String × α)) (k : String)
    (f : α → β) :
    List.lookup k (l.map (fun kv => (kv.1, f kv.2)))
      = (List.lookup k l).map f := by
  induction l with
  | nil => rfl
  | cons kv t ih =>
    by_cases hk : k = kv.1
    · simp [List.lookup, hk]
    · simp [List.lookup, beq_false_of_ne hk, ih]

theorem lookup_updateValAt_self {α : Type} (l : List (String × α))
    (k : String) (f : α → α) :
    List.lookup k (updateValAt l k f) = (List.lookup k l).map f := by
  induction l with
  | nil => rfl
  | cons kv t ih =>
    obtain ⟨k1, v1⟩ := kv
    unfold updateValAt at ih ⊢
    by_cases hk : k1 = k
    · subst hk
      simp only [List.map_cons, if_pos rfl]
      simp [List.lookup]
    · simp only [List.map_cons, if_neg hk]
      have hk' : (k == k1) = false := beq_false_of_ne (fun e => hk e.symm)
      simp [List.lookup, hk', ih]

theorem lookup_updateValAt_ne {α : Type} (l : List (String × α))
    (k k2 : String) (f : α → α) (hk : k ≠ k2) :
    List.lookup k (updateValAt l k2 f) = List.lookup k l := by
  induction l with
  | nil => rfl
  | cons kv t ih =>
    obtain ⟨k1, v1⟩ := kv
    unfold updateValAt at ih ⊢
    by_cases h1 : k1 = k2
    · subst h1
      simp only [List.map_cons, if_pos rfl]
      simp [List.lookup, beq_false_of_ne hk, ih]
    · simp only [List.map_cons, if_neg h1]
      by_cases h2 : k = k1
      · simp [List.lookup, h2]
      · simp [List.lookup, beq_false_of_ne h2, ih]

theorem keys_updateValAt {α : Type} (l : List (String × α)) (k : String)
    (f : α → α) :
    (updateValAt l k f).map Prod.fst = l.map Prod.fst := by
  induction l with
  | nil => rfl
  | cons kv t ih =>
    unfold updateValAt at ih ⊢
    by_cases h : kv.1 = k
    · simp [h, ih]
    · simp [h, ih]

theorem lookup_reverse_nodup {α : Type} (l : List (String × α)) (k : String)
    (h : (l.map Prod.fst).Nodup) :
    List.lookup k l.reverse = List.lookup k l := by
  induction l with
  | nil => rfl
  | cons kv t ih =>
    obtain ⟨k1, v1⟩ := kv
    rw [List.map_cons, List.nodup_cons] at h
    rw [List.reverse_cons, lookup_append_cases, ih h.2]
    by_cases hk : k = k1
    · have hbe : (k == k1) = true := beq_iff_eq.mpr hk
      have hnone : List.lookup k t = none := by
        cases hl : List.lookup k t with
        | none => rfl
        | some v =>
          have hmem : k ∈ t.map Prod.fst :=
            List.mem_map_of_mem Prod.fst (lookup_some_mem hl)
          rw [hk] at hmem
          exact absurd hmem h.1
      rw [hnone]
      simp [List.lookup, hbe]
    · have hbe : (k == k1) = false := beq_false_of_ne hk
      cases hl : List.lookup k t with
      | none => simp [List.lookup, hbe, hl]
      | some v => simp [List.lookup, hbe, hl]

/-! ## Season fold lemmas -/

theorem gameTypeOf_cases (g : Game) :
    gameTypeOf g = "regular" ∨ gameTypeOf g = "playoff" := by
  unfold gameTypeOf
  by_cases h : g.isPlayoff <;> simp [h]

theorem ensureInit_self (c : CatMap) (p : String) :
    ensureInit c p p = some ((c p).getD initPS) := by
  cases h : c p <;> simp [ensureInit, setCat, h]

theorem ensureInit_other (c : CatMap) (p q : String) (hq : q ≠ p) :
    ensureInit c p q = c q := by
  cases h : c p <;> simp [ensureInit, setCat, h, hq]

theorem accumInto_other (sd : SeasonData) (cat pnum : String)
    (line : PlayerGameStats) (q : String) (hq : q ≠ pnum) :
    ((accumInto sd cat pnum line).regular q = sd.regular q)
    ∧ ((accumInto sd cat pnum line).playoff q = sd.playoff q)
    ∧ ((accumInto sd cat pnum line).all q = sd.all q) := by
  by_cases h1 : cat = "regular"
  · subst h1
    cases hm : sd.regular pnum <;>
      simp [accumInto, getCat, setCatIn, setCat, hm, hq]
  · by_cases h2 : cat = "playoff"
    · subst h2
      cases hm : sd.playoff pnum <;>
        simp [accumInto, getCat, setCatIn, setCat, hm, hq, h1]
    · cases hm : sd.all pnum <;>
        simp [accumInto, getCat, setCatIn, setCat, hm, hq, h1, h2]

theorem accumInto_regular (sd : SeasonData) (pnum : String)
    (line : PlayerGameStats) (ps : PlayerSeason)
    (h : sd.regular pnum = some ps) :
    accumInto sd "regular" pnum line
      = { sd with regular := setCat sd.regular pnum (bump ps line) } := by
  simp [accumInto, getCat, setCatIn, h]

theorem accumInto_playoff (sd : SeasonData) (pnum : String)
    (line : PlayerGameStats) (ps : PlayerSeason)
    (h : sd.playoff pnum = some ps) :
    accumInto sd "playoff" pnum line
      = { sd with playoff := setCat sd.playoff pnum (bump ps line) } := by
  simp [accumInto, getCat, setCatIn, h]

theorem accumInto_all (sd : SeasonData) (pnum : String)
    (line : PlayerGameStats) (ps : PlayerSeason) (h : sd.all pnum = some ps) :
    accumInto sd "all" pnum line
      = { sd with all := setCat sd.all pnum (bump ps line) } := by
  simp [accumInto, getCat, setCatIn, h]

theorem addGamePlayer_self (sd : SeasonData) (gtype pnum : String)
    (line : PlayerGameStats)
    (hg : gtype = "regular" ∨ gtype = "playoff") :
    ((addGamePlayer sd gtype pnum line).all pnum
      = some (bump ((sd.all pnum).getD initPS) line))
    ∧ (gtype = "regular" →
        (addGamePlayer sd gtype pnum line).regular pnum
          = some (bump ((sd.regular pnum).getD initPS) line)
        ∧ (addGamePlayer sd gtype pnum line).playoff pnum
          = some ((sd.playoff pnum).getD initPS))
    ∧ (gtype = "playoff" →
        (addGamePlayer sd gtype pnum line).playoff pnum
          = some (bump ((sd.playoff pnum).getD initPS) line)
        ∧ (addGamePlayer sd gtype pnum line).regular pnum
          = some ((sd.regular pnum).getD initPS)) := by
  rcases hg with hg | hg <;> subst hg <;>
    cases hr : sd.regular pnum <;> cases hp : sd.playoff pnum <;>
    cases ha : sd.all pnum <;>
    simp [addGamePlayer, accumInto, getCat, setCatIn, setCat, ensureInit,
      hr, hp, ha]

theorem addGamePlayer_other (sd : SeasonData) (gtype pnum : String)
    (line : PlayerGameStats) (q : String) (hq : q ≠ pnum) :
    ((addGamePlayer sd gtype pnum line).regular q = sd.regular q)
    ∧ ((addGamePlayer sd gtype pnum line).playoff q = sd.playoff q)
    ∧ ((addGamePlayer sd gtype pnum line).all q = sd.all q) := by
  simp only [addGamePlayer]
  obtain ⟨o1, o2, o3⟩ := accumInto_other
    (accumInto
      { regular := ensureInit sd.regular pnum
        playoff := ensureInit sd.playoff pnum
        all := ensureInit sd.all pnum } gtype pnum line) "all" pnum line q hq
  obtain ⟨i1, i2, i3⟩ := accumInto_other
    { regular := ensureInit sd.regular pnum
      playoff := ensureInit sd.playoff pnum
      all := ensureInit sd.all pnum } gtype pnum line q hq
  refine ⟨?_, ?_, ?_⟩
  · rw [o1, i1]; exact ensureInit_other sd.regular pnum q hq
  · rw [o2, i2]; exact ensureInit_other sd.playoff pnum q hq
  · rw [o3, i3]; exact ensureInit_other sd.all pnum q hq

/-- Accumulating a line raises the games-played count by one. -/
theorem bump_gp (ps : PlayerSeason) (line : PlayerGameStats) :
    (bump ps line).gp = ps.gp + 1 := rfl

/-- The three category dictionaries of a season stay aligned: a player is
present in one exactly when present in all, and the all games-played
count is the sum of the regular and playoff ones. -/
def catsAligned (sd : SeasonData) : Prop :=
  ∀ p, ((sd.regular p).isSome = (sd.all p).isSome)
    ∧ ((sd.playoff p).isSome = (sd.all p).isSome)
    ∧ ∀ r po al, sd.regular p = some r → sd.playoff p = some po →
        sd.all p = some al → al.gp = r.gp + po.gp

theorem emptySD_aligned : catsAligned emptySD := by
  intro p
  refine ⟨rfl, rfl, ?_⟩
  intro r po al hr
  exact Option.noConfusion hr

theorem addGamePlayer_aligned {sd : SeasonData} (h : catsAligned sd)
    (gtype pnum : String) (line : PlayerGameStats)
    (hg : gtype = "regular" ∨ gtype = "playoff") :
    catsAligned (addGamePlayer sd gtype pnum line) := by
  intro p
  by_cases hp : p = pnum
  · subst hp
    have key : ((sd.all p).getD initPS).gp
        = ((sd.regular p).getD initPS).gp + ((sd.playoff p).getD initPS).gp := by
      obtain ⟨e1, e2, e3⟩ := h p
      cases ha : sd.all p with
      | none =>
        have hr : sd.regular p = none := by
          cases hr : sd.regular p with
          | none => rfl
          | some r =>
            rw [hr, ha] at e1
            exact absurd e1 (by simp)
        have hpo : sd.playoff p = none := by
          cases hpo : sd.playoff p with
          | none => rfl
          | some po =>
            rw [hpo, ha] at e2
            exact absurd e2 (by simp)
        simp [ha, hr, hpo, initPS]
      | some al =>
        rw [ha] at e1 e2
        obtain ⟨r, hr⟩ := Option.isSome_iff_exists.mp (by simpa using e1)
        obtain ⟨po, hpo⟩ := Option.isSome_iff_exists.mp (by simpa using e2)
        have hsum := e3 r po al hr hpo ha
        simp [ha, hr, hpo, hsum]
    rcases hg with hg | hg <;> subst hg
    · obtain ⟨hall, hself, _⟩ :=
        addGamePlayer_self sd "regular" p line (Or.inl rfl)
      obtain ⟨h1, h2⟩ := hself rfl
      refine ⟨by rw [h1, hall]; rfl, by rw [h2, hall]; rfl, ?_⟩
      intro r po al hr hpo hal
      rw [h1] at hr
      rw [h2] at hpo
      rw [hall] at hal
      cases hr
      cases hpo
      cases hal
      rw [bump_gp, bump_gp]
      omega
    · obtain ⟨hall, _, hself⟩ :=
        addGamePlayer_self sd "playoff" p line (Or.inr rfl)
      obtain ⟨h1, h2⟩ := hself rfl
      refine ⟨by rw [h2, hall]; rfl, by rw [h1, hall]; rfl, ?_⟩
      intro r po al hr hpo hal
      rw [h2] at hr
      rw [h1] at hpo
      rw [hall] at hal
      cases hr
      cases hpo
      cases hal
      rw [bump_gp, bump_gp]
      omega
  · obtain ⟨o1, o2, o3⟩ := addGamePlayer_other sd gtype pnum line p hp
    obtain ⟨e1, e2, e3⟩ := h p
    exact ⟨by rw [o1, o3]; exact e1, by rw [o2, o3]; exact e2,
      fun r po al hr hpo hal =>
        e3 r po al (o1.symm.trans hr) (o2.symm.trans hpo) (o3.symm.trans hal)⟩

/-- Presence of a player in all three category dictionaries. -/
def present3 (sd : SeasonData) (p : String) : Prop :=
  (sd.regular p).isSome = true ∧ (sd.playoff p).isSome = true
    ∧ (sd.all p).isSome = true

theorem addGamePlayer_present3_self (sd : SeasonData) (gtype pnum : String)
    (line : PlayerGameStats) (hg : gtype = "regular" ∨ gtype = "playoff") :
    present3 (addGamePlayer sd gtype pnum line) pnum := by
  obtain ⟨hall, hreg, hpo⟩ := addGamePlayer_self sd gtype pnum line hg
  rcases hg with hg | hg <;> subst hg
  · obtain ⟨h1, h2⟩ := hreg rfl
    exact ⟨by rw [h1]; rfl, by rw [h2]; rfl, by rw [hall]; rfl⟩
  · obtain ⟨h1, h2⟩ := hpo rfl
    exact ⟨by rw [h2]; rfl, by rw [h1]; rfl, by rw [hall]; rfl⟩

theorem addGamePlayer_present3_mono {sd : SeasonData} {q : String}
    (hq : present3 sd q) (gtype pnum : String) (line : PlayerGameStats)
    (hg : gtype = "regular" ∨ gtype = "playoff") :
    present3 (addGamePlayer sd gtype pnum line) q := by
  by_cases hqe : q = pnum
  · subst hqe
    exact addGamePlayer_present3_self sd gtype q line hg
  · obtain ⟨o1, o2, o3⟩ := addGamePlayer_other sd gtype pnum line q hqe
    exact ⟨by rw [o1]; exact hq.1, by rw [o2]; exact hq.2.1,
      by rw [o3]; exact hq.2.2⟩

theorem foldPlayers_aligned (gtype : String)
    (hg : gtype = "regular" ∨ gtype = "playoff") :
    ∀ (stats : List (String × PlayerGameStats)) (sd : SeasonData),
      catsAligned sd →
      catsAligned (stats.foldl
        (fun sd pr => addGamePlayer sd gtype pr.1 pr.2) sd) := by
  intro stats
  induction stats with
  | nil => intro sd h; exact h
  | cons pr t ih =>
    intro sd h
    exact ih _ (addGamePlayer_aligned h gtype pr.1 pr.2 hg)

theorem foldPlayers_present3_mono (gtype : String)
    (hg : gtype = "regular" ∨ gtype = "playoff") (q : String) :
    ∀ (stats : List (String × PlayerGameStats)) (sd : SeasonData),
      present3 sd q →
      present3 (stats.foldl
        (fun sd pr => addGamePlayer sd gtype pr.1 pr.2) sd) q := by
  intro stats
  induction stats with
  | nil => intro sd h; exact h
  | cons pr t ih =>
    intro sd h
    exact ih _ (addGamePlayer_present3_mono h gtype pr.1 pr.2 hg)

theorem foldPlayers_present3_mem (gtype : String)
    (hg : gtype = "regular" ∨ gtype = "playoff")
    (pr0 : String × PlayerGameStats) :
    ∀ (stats : List (String × PlayerGameStats)) (sd : SeasonData),
      pr0 ∈ stats →
      present3 (stats.foldl
        (fun sd pr => addGamePlayer sd gtype pr.1 pr.2) sd) pr0.1 := by
  intro stats
  induction stats with
  | nil => intro sd h; exact absurd h (List.not_mem_nil _)
  | cons pr t ih =>
    intro sd hmem
    rcases List.mem_cons.mp hmem with rfl | hmem2
    · rw [List.foldl_cons]
      exact foldPlayers_present3_mono gtype hg pr0.1 t _
        (addGamePlayer_present3_self sd gtype pr0.1 pr0.2 hg)
    · exact ih _ hmem2

/-- Every season bucket in the dictionary is aligned. -/
def seasonsAligned (l : List (String × SeasonData)) : Prop :=
  ∀ kv ∈ l, catsAligned kv.2

theorem addGame_aligned {l : List (String × SeasonData)}
    (h : seasonsAligned l) (g : Game) : seasonsAligned (addGame l g) := by
  intro kv hkv
  simp only [addGame, updateValAt] at hkv
  obtain ⟨kv0, hkv0, heq⟩ := List.mem_map.mp hkv
  have hal0 : catsAligned kv0.2 := by
    by_cases hpres : (List.lookup g.season l).isSome
    · rw [if_pos hpres] at hkv0
      exact h kv0 hkv0
    · rw [if_neg hpres] at hkv0
      rcases List.mem_append.mp hkv0 with hin | hin
      · exact h kv0 hin
      · rw [List.mem_singleton] at hin
        rw [hin]
        exact emptySD_aligned
  by_cases hk : kv0.1 = g.season
  · rw [if_pos hk] at heq
    rw [← heq]
    exact foldPlayers_aligned (gameTypeOf g) (gameTypeOf_cases g)
      g.stats kv0.2 hal0
  · rw [if_neg hk] at heq
    rw [← heq]
    exact hal0

theorem seasonsOf_aligned (games : List Game) :
    seasonsAligned (seasonsOf games) := by
  have aux : ∀ (gs : List Game) (acc), seasonsAligned acc →
      seasonsAligned (gs.foldl addGame acc) := by
    intro gs
    induction gs with
    | nil => intro acc h; exact h
    | cons g t ih => intro acc h; exact ih _ (addGame_aligned h g)
  exact aux games [] (fun kv h => absurd h (List.not_mem_nil kv))

theorem addGame_lookup_self (l : List (String × SeasonData)) (g : Game) :
    List.lookup g.season (addGame l g)
      = some (g.stats.foldl
          (fun sd pr => addGamePlayer sd (gameTypeOf g) pr.1 pr.2)
          ((List.lookup g.season l).getD emptySD)) := by
  simp only [addGame]
  by_cases hpres : (List.lookup g.season l).isSome
  · rw [if_pos hpres, lookup_updateValAt_self]
    obtain ⟨v, hv⟩ := Option.isSome_iff_exists.mp hpres
    rw [hv]
    rfl
  · rw [if_neg hpres, lookup_updateValAt_self, lookup_append_cases]
    rw [Option.not_isSome_iff_eq_none] at hpres
    rw [hpres]
    simp [List.lookup]

/-- There is an entry for the season holding the player in all three
categories. -/
def presentEntry (l : List (String × SeasonData)) (skey pnum : String) :
    Prop :=
  ∃ sd, List.lookup skey l = some sd ∧ present3 sd pnum

theorem addGame_presence_mono {l : List (String × SeasonData)}
    {skey pnum : String} (h : presentEntry l skey pnum) (g : Game) :
    presentEntry (addGame l g) skey pnum := by
  obtain ⟨sd, hl, hp⟩ := h
  by_cases hk : skey = g.season
  · subst hk
    refine ⟨_, addGame_lookup_self l g, ?_⟩
    have hgd : (List.lookup g.season l).getD emptySD = sd := by
      rw [hl]
      rfl
    rw [hgd]
    exact foldPlayers_present3_mono (gameTypeOf g) (gameTypeOf_cases g)
      pnum g.stats sd hp
  · refine ⟨sd, ?_, hp⟩
    simp only [addGame]
    rw [lookup_updateValAt_ne _ _ _ _ hk]
    by_cases hpres : (List.lookup g.season l).isSome
    · rw [if_pos hpres]
      exact hl
    · rw [if_neg hpres, lookup_append_cases, hl]

theorem addGame_presence_self (l : List (String × SeasonData)) (g : Game)
    (pr : String × PlayerGameStats) (hpr : pr ∈ g.stats) :
    presentEntry (addGame l g) g.season pr.1 :=
  ⟨_, addGame_lookup_self l g,
    foldPlayers_present3_mem (gameTypeOf g) (gameTypeOf_cases g) pr
      g.stats _ hpr⟩

theorem foldGames_presence_mono {skey pnum : String} :
    ∀ (gs : List Game) (acc), presentEntry acc skey pnum →
      presentEntry (gs.foldl addGame acc) skey pnum := by
  intro gs
  induction gs with
  | nil => intro acc h; exact h
  | cons g t ih =>
    intro acc h
    exact ih _ (addGame_presence_mono h g)

theorem foldGames_presence {skey pnum : String} :
    ∀ (gs : List Game) (acc),
      (∃ g ∈ gs, g.season = skey ∧ ∃ pr ∈ g.stats, pr.1 = pnum) →
      presentEntry (gs.foldl addGame acc) skey pnum := by
  intro gs
  induction gs with
  | nil =>
    rintro acc ⟨g, hg, _⟩
    exact absurd hg (List.not_mem_nil g)
  | cons g0 t ih =>
    rintro acc ⟨g, hg, hsk, pr, hpr, hpn⟩
    rcases List.mem_cons.mp hg with rfl | hmem
    · rw [List.foldl_cons]
      apply foldGames_presence_mono t
      rw [← hsk, ← hpn]
      exact addGame_presence_self acc g pr hpr
    · exact ih _ ⟨g, hmem, hsk, pr, hpr, hpn⟩

theorem nodup_addGame {l : List (String × SeasonData)}
    (h : (l.map Prod.fst).Nodup) (g : Game) :
    ((addGame l g).map Prod.fst).Nodup := by
  simp only [addGame]
  rw [keys_updateValAt]
  by_cases hpres : (List.lookup g.season l).isSome
  · rw [if_pos hpres]
    exact h
  · rw [if_neg hpres, List.map_append]
    refine List.Nodup.append h (List.nodup_singleton _) ?_
    intro a ha hb
    simp only [List.map_cons, List.map_nil, List.mem_singleton] at hb
    subst hb
    have := (lookup_isSome_iff_mem_keys l g.season).mpr ha
    rw [Option.not_isSome_iff_eq_none] at hpres
    rw [hpres] at this
    exact Bool.noConfusion this

theorem seasonsOf_nodup (games : List Game) :
    ((seasonsOf games).map Prod.fst).Nodup := by
  have aux : ∀ (gs : List Game) (acc : List (String × SeasonData)),
      (acc.map Prod.fst).Nodup →
      ((gs.foldl addGame acc).map Prod.fst).Nodup := by
    intro gs
    induction gs with
    | nil => intro acc h; exact h
    | cons g t ih => intro acc h; exact ih _ (nodup_addGame h g)
  exact aux games [] List.nodup_nil

theorem finalizePS_gp (ps : PlayerSeason) : (finalizePS ps).gp = ps.gp := by
  unfold finalizePS
  split <;> rfl

/-- C10: every player who appears in any game of a season has an
aggregate entry in all three categories of that season's persisted
output, and the all games-played count equals the sum of the regular and
playoff counts. -/
theorem season_gp_decomposition (store : String → Option SeasonData)
    (games : List Game) (skey pnum : String)
    (h : ∃ g ∈ games, g.season = skey ∧ ∃ pr ∈ g.stats, pr.1 = pnum) :
    ∃ sd r po al,
      update_season_stats store games skey = some sd
      ∧ sd.regular pnum = some r ∧ sd.playoff pnum = some po
      ∧ sd.all pnum = some al ∧ al.gp = r.gp + po.gp := by
  obtain ⟨sd0, hl, hp3⟩ := foldGames_presence games [] h
  have hal : catsAligned sd0 :=
    seasonsOf_aligned games (skey, sd0) (lookup_some_mem hl)
  obtain ⟨r0, hr0⟩ := Option.isSome_iff_exists.mp hp3.1
  obtain ⟨po0, hpo0⟩ := Option.isSome_iff_exists.mp hp3.2.1
  obtain ⟨al0, hal0⟩ := Option.isSome_iff_exists.mp hp3.2.2
  have hgp : al0.gp = r0.gp + po0.gp :=
    (hal pnum).2.2 r0 po0 al0 hr0 hpo0 hal0
  have hkeys : ((seasonsOf games).map
        (fun kv => (kv.1, finalizeSD kv.2))).map Prod.fst
      = (seasonsOf games).map Prod.fst := by
    rw [List.map_map]
    rfl
  have hl2 : List.lookup skey (seasonsOf games) = some sd0 := hl
  have hfin : update_season_stats store games skey
      = some (finalizeSD sd0) := by
    unfold update_season_stats
    rw [writeAll_apply, lookup_reverse_nodup _ _ (by
      rw [hkeys]
      exact seasonsOf_nodup games), lookup_map_value, hl2]
    rfl
  refine ⟨finalizeSD sd0, finalizePS r0, finalizePS po0, finalizePS al0,
    hfin, ?_, ?_, ?_, ?_⟩
  · simp [finalizeSD, hr0]
  · simp [finalizeSD, hpo0]
  · simp [finalizeSD, hal0]
  · rw [finalizePS_gp, finalizePS_gp, finalizePS_gp]
    exact hgp

/-- Witness for C10 on a one-game corpus. -/
theorem season_gp_decomposition_witness :
    ∃ sd r po al,
      update_season_stats (fun _ => none) [demoGame] "2025" = some sd
      ∧ sd.regular "7" = some r ∧ sd.playoff "7" = some po
      ∧ sd.all "7" = some al ∧ al.gp = r.gp + po.gp :=
  season_gp_decomposition (fun _ => none) [demoGame] "2025" "7"
    ⟨demoGame, List.mem_cons_self _ _, rfl,
      ("7", demoLine), List.mem_cons_self _ _, rfl⟩

end MyStats
